import Mathlib

/-!
Verification of the PNGme chunk codec: a shallow embedding of
`src/chunk_type.rs`, `src/chunk.rs` and the error type of `src/lib.rs`,
followed by theorems about the embedded operations.

Bytes (`u8`) are modelled as `Nat`; every function that consumes bytes is
stated, where it matters, under the hypothesis that they are below 256.
Machine integers (`u32`, `usize`) are modelled as `Nat` with explicit
`% 2 ^ 32` at the one place the code performs a truncating cast.
Rust operations that can abort the process (slice indexing and `split_at`
out of bounds, `usize` subtraction overflow) are modelled by a dedicated
`panic` outcome, distinct from returning an error value.
-/

set_option autoImplicit false
set_option maxRecDepth 100000

namespace PNGme

/-- `u8::is_ascii_alphabetic`: the byte is in `A`–`Z` or `a`–`z`. -/
def isAsciiAlphabetic (b : Nat) : Bool :=
  (65 ≤ b && b ≤ 90) || (97 ≤ b && b ≤ 122)

/-- `u8::is_ascii_uppercase`: the byte is in `A`–`Z`. -/
def isAsciiUppercase (b : Nat) : Bool :=
  65 ≤ b && b ≤ 90

/-- `u8::is_ascii_lowercase`: the byte is in `a`–`z`. -/
def isAsciiLowercase (b : Nat) : Bool :=
  97 ≤ b && b ≤ 122

/-- The crate error type `Error` from `src/lib.rs`. -/
inductive Error where
  | InvalidByte
  | FailedConversion
deriving DecidableEq, Repr

/-- `std::array::TryFromSliceError`: the error of converting a slice of the
wrong length into a fixed-size array. -/
inductive TryFromSliceError where
  | mk
deriving DecidableEq, Repr

/-- A `[u8; 4]` array, the payload of `ChunkType`. -/
structure U8x4 where
  b0 : Nat
  b1 : Nat
  b2 : Nat
  b3 : Nat
deriving DecidableEq, Repr

/-- The 4 array entries in order, as `<[u8; 4]>::to_vec` produces them. -/
def U8x4.toList (v : U8x4) : List Nat :=
  [v.b0, v.b1, v.b2, v.b3]

/-- `ChunkType` from `src/chunk_type.rs`: a wrapped `[u8; 4]`. -/
structure ChunkType where
  chunk_type : U8x4
deriving DecidableEq, Repr

namespace ChunkType

/-- `ChunkType::bytes`: returns a copy of the wrapped array. -/
def bytes (t : ChunkType) : U8x4 :=
  t.chunk_type

/-- `ChunkType::is_valid`: byte 2 is ASCII uppercase. -/
def is_valid (t : ChunkType) : Bool :=
  isAsciiUppercase t.chunk_type.b2

/-- `ChunkType::is_critical`: byte 0 is ASCII uppercase. -/
def is_critical (t : ChunkType) : Bool :=
  isAsciiUppercase t.chunk_type.b0

/-- `ChunkType::is_public`: byte 1 is ASCII uppercase. -/
def is_public (t : ChunkType) : Bool :=
  isAsciiUppercase t.chunk_type.b1

/-- `ChunkType::is_reserved_bit_valid`: byte 2 is ASCII uppercase. -/
def is_reserved_bit_valid (t : ChunkType) : Bool :=
  isAsciiUppercase t.chunk_type.b2

/-- `ChunkType::is_safe_to_copy`: byte 3 is ASCII lowercase. -/
def is_safe_to_copy (t : ChunkType) : Bool :=
  isAsciiLowercase t.chunk_type.b3

/-- `<ChunkType as FromStr>::from_str`: `s.as_bytes().try_into()` succeeds
exactly when the encoding of `s` (given here as its byte list) has length 4;
no other check is performed. -/
def from_str (s : List Nat) : Except TryFromSliceError ChunkType :=
  match s with
  | [a, b, c, d] => .ok ⟨⟨a, b, c, d⟩⟩
  | _ => .error .mk

/-- `<ChunkType as TryFrom<[u8; 4]>>::try_from`: every byte must be ASCII
alphabetic, otherwise `Error::InvalidByte`. -/
def tryFrom (value : U8x4) : Except Error ChunkType :=
  if value.toList.all isAsciiAlphabetic then
    .ok ⟨value⟩
  else
    .error .InvalidByte

end ChunkType

/-- Modelled from the spec: the external `crc` crate's
`crc::crc32::checksum_ieee`, which `src/chunk.rs` calls but whose source is
not part of this repository. The spec describes it as "the standard CRC-32
(IEEE/\x22ZIP\x22 polynomial, the standard CRC-32 variant)": the reflected
algorithm with polynomial `0xEDB88320`, initial value `0xFFFFFFFF` and final
complement. One LSB-first division step of that algorithm. -/
def crc32_step (v : Nat) : Nat :=
  if v % 2 = 1 then (v / 2) ^^^ 0xEDB88320 else v / 2

/-- `n` iterated division steps. -/
def crc32_steps : Nat → Nat → Nat
  | 0, v => v
  | n + 1, v => crc32_steps n (crc32_step v)

/-- Folding one input byte into the running CRC value: xor the byte into the
low 8 bits, then do 8 division steps. -/
def crc32_update (v b : Nat) : Nat :=
  crc32_steps 8 (v ^^^ (b % 256))

/-- Modelled from the spec: `crc::crc32::checksum_ieee` over a byte sequence,
starting from `0xFFFFFFFF` and complementing the final value. -/
def checksum_ieee (d : List Nat) : Nat :=
  (d.foldl crc32_update 0xFFFFFFFF) ^^^ 0xFFFFFFFF

/-- `Chunk` from `src/chunk.rs`. -/
structure Chunk where
  length : Nat
  chunk_type : ChunkType
  chunk_data : List Nat
  crc : Nat
deriving DecidableEq, Repr

/-- `u32::from_be_bytes`. -/
def u32_from_be_bytes (b : U8x4) : Nat :=
  b.b0 * 2 ^ 24 + b.b1 * 2 ^ 16 + b.b2 * 2 ^ 8 + b.b3

/-- `u32::to_be_bytes`, as the list the code appends to the output vector. -/
def u32_to_be_bytes (n : Nat) : List Nat :=
  [n / 2 ^ 24 % 256, n / 2 ^ 16 % 256, n / 2 ^ 8 % 256, n % 256]

namespace Chunk

/-- `Chunk::new`: stores `data.len() as u32` (a truncating cast) and the
CRC of the payload bytes alone. -/
def new (chunk_type : ChunkType) (chunk_data : List Nat) : Chunk :=
  { length := chunk_data.length % 2 ^ 32
    chunk_type := chunk_type
    chunk_data := chunk_data
    crc := checksum_ieee chunk_data }

/-- `Chunk::data`: the payload bytes. -/
def data (c : Chunk) : List Nat :=
  c.chunk_data

/-- `Chunk::as_bytes`: appends, in order, the big-endian length, the 4
type-tag bytes, a copy of the payload and the big-endian CRC to an initially
empty vector. -/
def as_bytes (c : Chunk) : List Nat :=
  let to_return : List Nat := []
  let to_return := to_return ++ u32_to_be_bytes c.length
  let to_return := to_return ++ c.chunk_type.bytes.toList
  let to_return := to_return ++ c.chunk_data
  let to_return := to_return ++ u32_to_be_bytes c.crc
  to_return

end Chunk

/-- The result of running a Rust function that may return `Ok`, return
`Err`, or abort the process (panic). -/
inductive Outcome (α : Type) where
  | ok : α → Outcome α
  | error : Error → Outcome α
  | panic : Outcome α
deriving DecidableEq, Repr

/-- `<&[u8] as TryInto<[u8; 4]>>::try_into`: succeeds exactly when the slice
has length 4. -/
def slice_try_into_4 (l : List Nat) : Except TryFromSliceError U8x4 :=
  match l with
  | [a, b, c, d] => .ok ⟨a, b, c, d⟩
  | _ => .error .mk

/-- `read_be_u32` from `src/chunk.rs`. `input.split_at(4)` aborts when the
slice holds fewer than 4 bytes; otherwise the first 4 bytes are converted
(`try_into`, mapping failure to `Error::FailedConversion`) and the input is
advanced past them. The advanced slice is returned alongside the value. -/
def read_be_u32 (input : List Nat) : Outcome (Nat × List Nat) :=
  if 4 ≤ input.length then
    let int_bytes := input.take 4
    let rest := input.drop 4
    match slice_try_into_4 int_bytes with
    | .ok t => .ok (u32_from_be_bytes t, rest)
    | .error _ => .error .FailedConversion
  else
    .panic

/-- `<Chunk as TryFrom<&[u8]>>::try_from` from `src/chunk.rs`:
read the declared length; index bytes 0–3 of the remainder (which aborts
when fewer than 4 remain) and build the `ChunkType`, mapping its failure to
`Error::InvalidByte`; drop those 4 bytes; `split_at(len - 4)` (whose index
computation aborts when fewer than 4 bytes remain) to cut payload from CRC
field; read the CRC. Nothing is cross-validated. -/
def Chunk.tryFrom (value : List Nat) : Outcome Chunk :=
  match read_be_u32 value with
  | .panic => .panic
  | .error e => .error e
  | .ok (length, value) =>
    if 4 ≤ value.length then
      match ChunkType.tryFrom ⟨value.getD 0 0, value.getD 1 0, value.getD 2 0, value.getD 3 0⟩ with
      | .error _ => .error .InvalidByte
      | .ok chunk_type =>
        let value := value.drop 4
        if 4 ≤ value.length then
          let chunk_data := value.take (value.length - 4)
          let input := value.drop (value.length - 4)
          match read_be_u32 input with
          | .panic => .panic
          | .error e => .error e
          | .ok (crc, _) =>
            .ok { length := length
                  chunk_type := chunk_type
                  chunk_data := chunk_data
                  crc := crc }
        else
          .panic
    else
      .panic

/-- The 42-byte message "This is where your secret message will be!" used by
the repository's tests, as its ASCII bytes. -/
def fixture_message : List Nat :=
  [84, 104, 105, 115, 32, 105, 115, 32, 119, 104, 101, 114, 101, 32, 121, 111,
   117, 114, 32, 115, 101, 99, 114, 101, 116, 32, 109, 101, 115, 115, 97, 103,
   101, 32, 119, 105, 108, 108, 32, 98, 101, 33]

/-- A 44-byte payload: the fixture message followed by two further bytes. -/
def fixture_payload44 : List Nat :=
  fixture_message ++ [33, 33]

/-! ### Helper lemmas -/

lemma exists_four {l : List Nat} (h : l.length = 4) :
    ∃ a b c d, l = [a, b, c, d] := by
  rcases l with _ | ⟨a, l⟩
  · simp at h
  rcases l with _ | ⟨b, l⟩
  · simp at h
  rcases l with _ | ⟨c, l⟩
  · simp at h
  rcases l with _ | ⟨d, l⟩
  · simp at h
  rcases l with _ | ⟨e, l⟩
  · exact ⟨a, b, c, d, rfl⟩
  · simp at h

lemma exists_cons_four {l : List Nat} (h : 4 ≤ l.length) :
    ∃ a b c d rest, l = a :: b :: c :: d :: rest := by
  rcases l with _ | ⟨a, l⟩
  · simp at h
  rcases l with _ | ⟨b, l⟩
  · simp at h
  rcases l with _ | ⟨c, l⟩
  · simp at h
  rcases l with _ | ⟨d, l⟩
  · simp at h
  exact ⟨a, b, c, d, l, rfl⟩

lemma exists_front_back4 {l : List Nat} (h : 4 ≤ l.length) :
    ∃ front c0 c1 c2 c3, l = front ++ [c0, c1, c2, c3] := by
  obtain ⟨c0, c1, c2, c3, hb⟩ := exists_four (l := l.drop (l.length - 4)) (by simp; omega)
  refine ⟨l.take (l.length - 4), c0, c1, c2, c3, ?_⟩
  conv_lhs => rw [← List.take_append_drop (l.length - 4) l]
  rw [hb]

lemma read_be_u32_cons (a b c d : Nat) (rest : List Nat) :
    read_be_u32 (a :: b :: c :: d :: rest) = .ok (u32_from_be_bytes ⟨a, b, c, d⟩, rest) := by
  simp [read_be_u32, slice_try_into_4]

lemma read_be_u32_short {input : List Nat} (h : input.length < 4) :
    read_be_u32 input = .panic := by
  unfold read_be_u32
  rw [if_neg (by omega)]

lemma read_be_u32_ne_error (input : List Nat) (e : Error) :
    read_be_u32 input ≠ .error e := by
  by_cases h : 4 ≤ input.length
  · obtain ⟨a, b, c, d, rest, rfl⟩ := exists_cons_four h
    rw [read_be_u32_cons]
    simp
  · rw [read_be_u32_short (by omega)]
    simp

lemma tryFrom_cons_layout (l0 l1 l2 l3 t0 t1 t2 t3 c0 c1 c2 c3 : Nat) (w : List Nat)
    (h : [t0, t1, t2, t3].all isAsciiAlphabetic = true) :
    Chunk.tryFrom (l0 :: l1 :: l2 :: l3 :: t0 :: t1 :: t2 :: t3 :: (w ++ [c0, c1, c2, c3])) =
      .ok { length := u32_from_be_bytes ⟨l0, l1, l2, l3⟩
            chunk_type := ⟨⟨t0, t1, t2, t3⟩⟩
            chunk_data := w
            crc := u32_from_be_bytes ⟨c0, c1, c2, c3⟩ } := by
  have hlen : (w ++ [c0, c1, c2, c3]).length - 4 = w.length := by simp
  have htake : (w ++ [c0, c1, c2, c3]).take w.length = w := List.take_left w _
  have hdrop : (w ++ [c0, c1, c2, c3]).drop w.length = [c0, c1, c2, c3] := List.drop_left w _
  simp [Chunk.tryFrom, read_be_u32_cons, ChunkType.tryFrom, U8x4.toList, h, hlen, htake, hdrop]

lemma tryFrom_cons8_invalid (a b c d t0 t1 t2 t3 : Nat) (rest : List Nat)
    (h : ¬ [t0, t1, t2, t3].all isAsciiAlphabetic = true) :
    Chunk.tryFrom (a :: b :: c :: d :: t0 :: t1 :: t2 :: t3 :: rest) = .error .InvalidByte := by
  simp [Chunk.tryFrom, read_be_u32_cons, ChunkType.tryFrom, U8x4.toList, h]

lemma tryFrom_cons8_shortTail (a b c d t0 t1 t2 t3 : Nat) (rest : List Nat)
    (h : rest.length < 4) (htag : [t0, t1, t2, t3].all isAsciiAlphabetic = true) :
    Chunk.tryFrom (a :: b :: c :: d :: t0 :: t1 :: t2 :: t3 :: rest) = .panic := by
  have hneg : ¬ 4 ≤ rest.length := by omega
  simp [Chunk.tryFrom, read_be_u32_cons, ChunkType.tryFrom, U8x4.toList, htag, hneg]

lemma tryFrom_panic_of_short {v : List Nat} (h : v.length < 8) :
    Chunk.tryFrom v = .panic := by
  by_cases h4 : 4 ≤ v.length
  · obtain ⟨a, b, c, d, rest, rfl⟩ := exists_cons_four h4
    simp only [List.length_cons] at h
    unfold Chunk.tryFrom
    rw [read_be_u32_cons]
    have hrest : ¬ 4 ≤ rest.length := by omega
    simp [hrest]
  · unfold Chunk.tryFrom
    rw [read_be_u32_short (by omega)]

lemma u32_from_to_be {n : Nat} (h : n < 2 ^ 32) :
    u32_from_be_bytes ⟨n / 2 ^ 24 % 256, n / 2 ^ 16 % 256, n / 2 ^ 8 % 256, n % 256⟩ = n := by
  norm_num [u32_from_be_bytes] at h ⊢
  omega

lemma u32_to_from_be {a b c d : Nat} (ha : a < 256) (hb : b < 256) (hc : c < 256)
    (hd : d < 256) :
    u32_to_be_bytes (u32_from_be_bytes ⟨a, b, c, d⟩) = [a, b, c, d] := by
  norm_num [u32_to_be_bytes, u32_from_be_bytes]
  omega

lemma crc32_step_lt {v : Nat} (h : v < 2 ^ 32) : crc32_step v < 2 ^ 32 := by
  unfold crc32_step
  split
  · exact Nat.xor_lt_two_pow (by omega) (by norm_num)
  · omega

lemma crc32_steps_lt (n : Nat) {v : Nat} (h : v < 2 ^ 32) : crc32_steps n v < 2 ^ 32 := by
  induction n generalizing v with
  | zero => exact h
  | succ n ih => exact ih (crc32_step_lt h)

lemma crc32_update_lt {v : Nat} (b : Nat) (h : v < 2 ^ 32) : crc32_update v b < 2 ^ 32 :=
  crc32_steps_lt 8 (Nat.xor_lt_two_pow h (by have := Nat.mod_lt b (y := 256) (by omega); omega))

lemma checksum_ieee_lt (d : List Nat) : checksum_ieee d < 2 ^ 32 := by
  unfold checksum_ieee
  refine Nat.xor_lt_two_pow ?_ (by norm_num)
  have hfold : ∀ (l : List Nat) (v : Nat), v < 2 ^ 32 → l.foldl crc32_update v < 2 ^ 32 := by
    intro l
    induction l with
    | nil => exact fun v hv => hv
    | cons b l ih => exact fun v hv => ih _ (crc32_update_lt b hv)
  exact hfold d _ (by norm_num)

lemma tryFrom_as_bytes_record (t0 t1 t2 t3 L C : Nat) (d : List Nat)
    (htag : [t0, t1, t2, t3].all isAsciiAlphabetic = true)
    (hL : L < 2 ^ 32) (hC : C < 2 ^ 32) :
    Chunk.tryFrom (Chunk.as_bytes { length := L, chunk_type := ⟨⟨t0, t1, t2, t3⟩⟩, chunk_data := d, crc := C }) =
      .ok { length := L, chunk_type := ⟨⟨t0, t1, t2, t3⟩⟩, chunk_data := d, crc := C } := by
  have e : Chunk.as_bytes { length := L, chunk_type := ⟨⟨t0, t1, t2, t3⟩⟩, chunk_data := d, crc := C }
      = L / 2 ^ 24 % 256 :: L / 2 ^ 16 % 256 :: L / 2 ^ 8 % 256 :: L % 256 ::
        t0 :: t1 :: t2 :: t3 ::
        (d ++ [C / 2 ^ 24 % 256, C / 2 ^ 16 % 256, C / 2 ^ 8 % 256, C % 256]) := by
    simp [Chunk.as_bytes, ChunkType.bytes, U8x4.toList, u32_to_be_bytes]
  rw [e, tryFrom_cons_layout _ _ _ _ _ _ _ _ _ _ _ _ d htag,
    u32_from_to_be hL, u32_from_to_be hC]

/-- Validation of the modelled CRC against known answers: the empty checksum
is 0, the fixture message checksums to 4220142316, and the tag-prefixed
fixture bytes checksum to 2882656334 — the value embedded in the
repository's own tests (which compute it over type tag plus data, the PNG
convention, while `Chunk::new` checksums the data alone). -/
theorem checksum_ieee_known_answers :
    checksum_ieee [] = 0 ∧
    checksum_ieee fixture_message = 4220142316 ∧
    checksum_ieee ([82, 117, 83, 116] ++ fixture_message) = 2882656334 :=
  ⟨by decide, by decide, by decide⟩

/-! ### Claim theorems -/

/-- C1: the spec requires parsing of any byte slice shorter than 8 bytes to
fail with a conversion-error value, never accessing out of bounds; the code
instead aborts (out-of-bounds slice access inside `read_be_u32` /
`split_at`) on every such input. The conjuncts evaluate the code at the
empty slice and at a 7-byte slice, and state the abort for every input
shorter than 8 bytes. -/
theorem tryFrom_aborts_on_short_input :
    Chunk.tryFrom [] = .panic ∧
    Chunk.tryFrom [0, 0, 0, 0, 0, 0, 0] = .panic ∧
    ∀ v : List Nat, v.length < 8 → Chunk.tryFrom v = .panic :=
  ⟨by decide, by decide, fun _ hv => tryFrom_panic_of_short hv⟩

/-- C2 counterexample: the from_str constructor accepts the non-alphabetic
tag "Ru1t"; a chunk built from that tag serializes, but re-parsing the
serialization fails with InvalidByte instead of yielding the chunk back, so
the round trip fails for a TypeTag constructed by one of the two
constructors. -/
theorem roundtrip_fails_for_from_str_tag :
    ChunkType.from_str [82, 117, 49, 116] = .ok ⟨⟨82, 117, 49, 116⟩⟩ ∧
    Chunk.tryFrom (Chunk.as_bytes (Chunk.new ⟨⟨82, 117, 49, 116⟩⟩ [])) =
      .error .InvalidByte :=
  ⟨rfl, by decide⟩

/-- C2 (amended): for every TypeTag whose four bytes are ASCII alphabetic —
every tag the byte-array constructor can produce, though not every tag
from_str can produce — and every payload, parsing the serialization of
`Chunk::new t d` succeeds with exactly `Chunk::new t d`: same length, same
type-tag bytes, same payload and same CRC. -/
theorem parse_serialize_roundtrip (t : ChunkType) (d : List Nat)
    (h : t.chunk_type.toList.all isAsciiAlphabetic = true) :
    Chunk.tryFrom (Chunk.as_bytes (Chunk.new t d)) = .ok (Chunk.new t d) := by
  obtain ⟨⟨t0, t1, t2, t3⟩⟩ := t
  exact tryFrom_as_bytes_record t0 t1 t2 t3 _ _ d h (Nat.mod_lt _ (by norm_num))
    (checksum_ieee_lt d)

/-- Witness for the round trip at the tag "RuSt" and payload [1, 2, 3]. -/
theorem parse_serialize_roundtrip_witness :
    Chunk.tryFrom (Chunk.as_bytes (Chunk.new ⟨⟨82, 117, 83, 116⟩⟩ [1, 2, 3])) =
      .ok (Chunk.new ⟨⟨82, 117, 83, 116⟩⟩ [1, 2, 3]) :=
  parse_serialize_roundtrip ⟨⟨82, 117, 83, 116⟩⟩ [1, 2, 3] (by decide)

/-- C3: on success the bytes after the 8-byte header are split so that the
last 4 become the big-endian CRC and everything before them the payload,
independently of the declared length: every field is stored verbatim as
read, with no cross-validation. The second conjunct is the fixture: a
declared length of 42, tag "RuSt", a 44-byte payload and CRC field
2882656334 parse successfully with exactly those stored values. -/
theorem parse_trailing_crc_split (l0 l1 l2 l3 t0 t1 t2 t3 c0 c1 c2 c3 : Nat)
    (data : List Nat)
    (h : [t0, t1, t2, t3].all isAsciiAlphabetic = true) :
    Chunk.tryFrom ([l0, l1, l2, l3] ++ [t0, t1, t2, t3] ++ data ++ [c0, c1, c2, c3]) =
      .ok { length := u32_from_be_bytes ⟨l0, l1, l2, l3⟩
            chunk_type := ⟨⟨t0, t1, t2, t3⟩⟩
            chunk_data := data
            crc := u32_from_be_bytes ⟨c0, c1, c2, c3⟩ } ∧
    Chunk.tryFrom (u32_to_be_bytes 42 ++ [82, 117, 83, 116] ++ fixture_payload44 ++
        u32_to_be_bytes 2882656334) =
      .ok { length := 42
            chunk_type := ⟨⟨82, 117, 83, 116⟩⟩
            chunk_data := fixture_payload44
            crc := 2882656334 } := by
  constructor
  · have e : [l0, l1, l2, l3] ++ [t0, t1, t2, t3] ++ data ++ [c0, c1, c2, c3]
        = l0 :: l1 :: l2 :: l3 :: t0 :: t1 :: t2 :: t3 :: (data ++ [c0, c1, c2, c3]) := by
      simp
    rw [e]
    exact tryFrom_cons_layout _ _ _ _ _ _ _ _ _ _ _ _ data h
  · decide

/-- Witness for the trailing-CRC split at a concrete mismatched input:
declared length 9, tag "RuSt", a 2-byte payload and CRC field 7. -/
theorem parse_trailing_crc_split_witness :
    Chunk.tryFrom ([0, 0, 0, 9] ++ [82, 117, 83, 116] ++ [1, 2] ++ [0, 0, 0, 7]) =
      .ok { length := 9, chunk_type := ⟨⟨82, 117, 83, 116⟩⟩, chunk_data := [1, 2], crc := 7 } :=
  (parse_trailing_crc_split 0 0 0 9 82 117 83 116 0 0 0 7 [1, 2] (by decide)).1

/-- C4: Chunk::new stores as CRC the (spec-modelled) standard CRC-32 of the
payload alone — the same value whatever the type tag — and stores the
payload byte-length as a truncating 32-bit cast; at the fixture message the
stored CRC is 4220142316, the CRC-32 of the message bytes alone. -/
theorem new_stores_crc_of_data_alone (t u : ChunkType) (d : List Nat) :
    (Chunk.new t d).crc = checksum_ieee d ∧
    (Chunk.new t d).crc = (Chunk.new u d).crc ∧
    (Chunk.new t d).length = d.length % 2 ^ 32 ∧
    (Chunk.new t fixture_message).crc = 4220142316 :=
  ⟨rfl, rfl, rfl, by show checksum_ieee fixture_message = 4220142316; decide⟩

/-- C5: ChunkType::try_from on a 4-byte array fails with InvalidByte exactly
when at least one byte is not ASCII alphabetic, and on success wraps the
input bytes unchanged, case preserved. -/
theorem chunkType_tryFrom_invalidByte_iff (v : U8x4) :
    (ChunkType.tryFrom v = .error .InvalidByte ↔
      ¬(isAsciiAlphabetic v.b0 = true ∧ isAsciiAlphabetic v.b1 = true ∧
        isAsciiAlphabetic v.b2 = true ∧ isAsciiAlphabetic v.b3 = true)) ∧
    ∀ t, ChunkType.tryFrom v = .ok t → t.chunk_type = v := by
  obtain ⟨b0, b1, b2, b3⟩ := v
  have hiff : ([b0, b1, b2, b3].all isAsciiAlphabetic = true) ↔
      (isAsciiAlphabetic b0 = true ∧ isAsciiAlphabetic b1 = true ∧
       isAsciiAlphabetic b2 = true ∧ isAsciiAlphabetic b3 = true) := by
    simp
  by_cases h : [b0, b1, b2, b3].all isAsciiAlphabetic = true
  · refine ⟨?_, ?_⟩
    · simp only [ChunkType.tryFrom, U8x4.toList]
      rw [if_pos h]
      simp [hiff.mp h]
    · intro t ht
      simp only [ChunkType.tryFrom, U8x4.toList] at ht
      rw [if_pos h] at ht
      injection ht with h2
      subst h2
      rfl
  · refine ⟨?_, ?_⟩
    · simp only [ChunkType.tryFrom, U8x4.toList]
      rw [if_neg h]
      simpa using fun hc => h (hiff.mpr hc)
    · intro t ht
      simp only [ChunkType.tryFrom, U8x4.toList] at ht
      rw [if_neg h] at ht
      simp at ht

/-- C6: from_str succeeds for every input encoding to exactly 4 bytes,
storing the bytes unchanged with no alphabetic-ness check — the tag "Ru1t"
is accepted on this path — and fails with the slice-conversion error for
every other input length. -/
theorem from_str_four_bytes (s : List Nat) :
    (s.length = 4 →
      ChunkType.from_str s = .ok ⟨⟨s.getD 0 0, s.getD 1 0, s.getD 2 0, s.getD 3 0⟩⟩) ∧
    (s.length ≠ 4 → ChunkType.from_str s = .error .mk) ∧
    ChunkType.from_str [82, 117, 49, 116] = .ok ⟨⟨82, 117, 49, 116⟩⟩ := by
  refine ⟨?_, ?_, rfl⟩
  · intro h
    obtain ⟨a, b, c, d, rfl⟩ := exists_four h
    rfl
  · intro h
    rcases s with _ | ⟨a, s⟩
    · rfl
    rcases s with _ | ⟨b, s⟩
    · rfl
    rcases s with _ | ⟨c, s⟩
    · rfl
    rcases s with _ | ⟨d, s⟩
    · rfl
    rcases s with _ | ⟨e, s⟩
    · exact absurd rfl h
    · rfl

/-- C7: each flag reads one fixed byte position's case, is_valid coincides
with is_reserved_bit_valid, and the fixtures behave as the spec states:
"RuSt" is critical, not public, reserved-valid, valid and safe to copy;
"Rust" is neither reserved-valid nor valid; the bytes of "Ru1t" are
rejected by the byte-array constructor with InvalidByte. -/
theorem flags_follow_byte_case :
    (∀ t : ChunkType,
      t.is_critical = isAsciiUppercase t.chunk_type.b0 ∧
      t.is_public = isAsciiUppercase t.chunk_type.b1 ∧
      t.is_reserved_bit_valid = isAsciiUppercase t.chunk_type.b2 ∧
      t.is_safe_to_copy = isAsciiLowercase t.chunk_type.b3 ∧
      t.is_valid = t.is_reserved_bit_valid) ∧
    ((⟨⟨82, 117, 83, 116⟩⟩ : ChunkType).is_critical = true ∧
     (⟨⟨82, 117, 83, 116⟩⟩ : ChunkType).is_public = false ∧
     (⟨⟨82, 117, 83, 116⟩⟩ : ChunkType).is_reserved_bit_valid = true ∧
     (⟨⟨82, 117, 83, 116⟩⟩ : ChunkType).is_valid = true ∧
     (⟨⟨82, 117, 83, 116⟩⟩ : ChunkType).is_safe_to_copy = true) ∧
    ((⟨⟨82, 117, 115, 116⟩⟩ : ChunkType).is_reserved_bit_valid = false ∧
     (⟨⟨82, 117, 115, 116⟩⟩ : ChunkType).is_valid = false) ∧
    ChunkType.tryFrom ⟨82, 117, 49, 116⟩ = .error .InvalidByte :=
  ⟨fun _ => ⟨rfl, rfl, rfl, rfl, rfl⟩, by decide, by decide, rfl⟩

/-- C8: serialization always succeeds and emits, in order, the stored length
as 4 big-endian bytes, the 4 tag bytes, the payload, and the stored CRC as 4
big-endian bytes; the emitted length and CRC are the stored field values,
not recomputed — witnessed by a chunk whose stored length 42 and CRC 7
disagree with its 1-byte payload yet are serialized verbatim. -/
theorem as_bytes_layout (c : Chunk) :
    c.as_bytes = u32_to_be_bytes c.length ++ c.chunk_type.bytes.toList ++
      c.chunk_data ++ u32_to_be_bytes c.crc ∧
    c.as_bytes.length = c.chunk_data.length + 12 ∧
    (Chunk.as_bytes { length := 42, chunk_type := ⟨⟨82, 117, 83, 116⟩⟩, chunk_data := [9], crc := 7 }
      = [0, 0, 0, 42] ++ [82, 117, 83, 116] ++ [9] ++ [0, 0, 0, 7]) ∧
    checksum_ieee [9] ≠ 7 ∧ ([9] : List Nat).length ≠ 42 := by
  refine ⟨?_, ?_, by decide, by decide, by decide⟩
  · simp [Chunk.as_bytes]
  · simp [Chunk.as_bytes, u32_to_be_bytes, ChunkType.bytes, U8x4.toList]

/-- C9: the FailedConversion branch of read_be_u32 is unreachable — whenever
the function returns at all (at least 4 input bytes, so split_at does not
abort), the fixed-size conversion succeeds — and Chunk parsing never
returns FailedConversion for any input. -/
theorem failedConversion_unreachable :
    (∀ input : List Nat, read_be_u32 input ≠ .error .FailedConversion) ∧
    (∀ input : List Nat, 4 ≤ input.length →
      read_be_u32 input = .ok (u32_from_be_bytes ⟨input.getD 0 0, input.getD 1 0,
        input.getD 2 0, input.getD 3 0⟩, input.drop 4)) ∧
    ∀ v : List Nat, Chunk.tryFrom v ≠ .error .FailedConversion := by
  refine ⟨fun input => read_be_u32_ne_error input _, ?_, ?_⟩
  · intro input h
    obtain ⟨a, b, c, d, rest, rfl⟩ := exists_cons_four h
    rw [read_be_u32_cons]
    rfl
  · intro v
    by_cases h8 : 8 ≤ v.length
    · obtain ⟨a, b, c, d, r1, rfl⟩ := exists_cons_four (l := v) (by omega)
      obtain ⟨t0, t1, t2, t3, rest, rfl⟩ := exists_cons_four (l := r1) (by
        simp only [List.length_cons] at h8
        omega)
      by_cases htag : [t0, t1, t2, t3].all isAsciiAlphabetic = true
      · by_cases hrest : 4 ≤ rest.length
        · obtain ⟨front, c0, c1, c2, c3, rfl⟩ := exists_front_back4 hrest
          rw [tryFrom_cons_layout _ _ _ _ _ _ _ _ _ _ _ _ _ htag]
          simp
        · rw [tryFrom_cons8_shortTail _ _ _ _ _ _ _ _ _ (by omega) htag]
          simp
      · rw [tryFrom_cons8_invalid _ _ _ _ _ _ _ _ _ htag]
        simp
    · rw [tryFrom_panic_of_short (by omega)]
      simp

/-- C10: for every input of length at least 12 whose bytes 4–7 are ASCII
alphabetic (and whose entries are bytes, below 256), parsing succeeds and
serializing the parsed chunk reproduces the input byte for byte, even when
the declared length disagrees with the payload size. -/
theorem parse_then_serialize_id (v : List Nat) (h12 : 12 ≤ v.length)
    (hb : ∀ b ∈ v, b < 256)
    (ht : [v.getD 4 0, v.getD 5 0, v.getD 6 0, v.getD 7 0].all isAsciiAlphabetic = true) :
    ∃ c : Chunk, Chunk.tryFrom v = .ok c ∧ c.as_bytes = v := by
  obtain ⟨a0, a1, a2, a3, r1, rfl⟩ := exists_cons_four (l := v) (by omega)
  obtain ⟨t0, t1, t2, t3, rest, rfl⟩ := exists_cons_four (l := r1) (by
    simp only [List.length_cons] at h12
    omega)
  have hrest4 : 4 ≤ rest.length := by
    simp only [List.length_cons] at h12
    omega
  obtain ⟨front, c0, c1, c2, c3, rfl⟩ := exists_front_back4 hrest4
  have htag : [t0, t1, t2, t3].all isAsciiAlphabetic = true := by
    simpa using ht
  refine ⟨_, tryFrom_cons_layout a0 a1 a2 a3 t0 t1 t2 t3 c0 c1 c2 c3 front htag, ?_⟩
  have e : Chunk.as_bytes { length := u32_from_be_bytes ⟨a0, a1, a2, a3⟩, chunk_type := ⟨⟨t0, t1, t2, t3⟩⟩, chunk_data := front, crc := u32_from_be_bytes ⟨c0, c1, c2, c3⟩ }
      = u32_to_be_bytes (u32_from_be_bytes ⟨a0, a1, a2, a3⟩) ++ [t0, t1, t2, t3] ++
        front ++ u32_to_be_bytes (u32_from_be_bytes ⟨c0, c1, c2, c3⟩) := by
    simp [Chunk.as_bytes, ChunkType.bytes, U8x4.toList]
  rw [e,
    u32_to_from_be (hb a0 (by simp)) (hb a1 (by simp)) (hb a2 (by simp)) (hb a3 (by simp)),
    u32_to_from_be (hb c0 (by simp)) (hb c1 (by simp)) (hb c2 (by simp)) (hb c3 (by simp))]
  simp

/-- Witness for parse-then-serialize identity at a concrete 12-byte input
whose declared length 0 happens to match its empty payload. -/
theorem parse_then_serialize_id_witness :
    ∃ c : Chunk,
      Chunk.tryFrom [0, 0, 0, 0, 82, 117, 83, 116, 0, 0, 0, 0] = .ok c ∧
      c.as_bytes = [0, 0, 0, 0, 82, 117, 83, 116, 0, 0, 0, 0] :=
  parse_then_serialize_id [0, 0, 0, 0, 82, 117, 83, 116, 0, 0, 0, 0]
    (by decide) (by decide) (by decide)

end PNGme
